import Mathlib

/-!
Verification of the raster statistics and classification engine of the
Inner-Mongolia drought monitoring application (`src/app.py`).

The embedding is shallow:
* raster cell values are modelled by `FVal` — either a rational number or
  `nan` (IEEE NaN, for which every ordered comparison is false);
* per-cell latitudes are rationals (degrees);
* areas are real numbers; `np.cos`/`np.radians` become `Real.cos` and
  multiplication by `π / 180`; Python `round(x, 3)` becomes `round3`
  (nearest multiple of 1/1000; no input considered here is a tie, where
  Python would round half to even);
* the external `rio.clip` call on a child region is modelled by the field
  `clip : Option (List Cell)` of `Child`: `none` models a raised exception
  (caught by the bare `except: pass` of the loop), `some cells` the clipped
  grid.
-/

/-- A raster cell value: a finite (rational) number or IEEE NaN. -/
inductive FVal : Type
  | nan : FVal
  | num (q : ℚ) : FVal
deriving DecidableEq, Repr

namespace FVal

/-- IEEE `<` : any comparison involving NaN is false. -/
def flt : FVal → FVal → Bool
  | num a, num b => a < b
  | _, _ => false

/-- IEEE `<=` : any comparison involving NaN is false. -/
def fle : FVal → FVal → Bool
  | num a, num b => a ≤ b
  | _, _ => false

/-- IEEE `>` : any comparison involving NaN is false. -/
def fgt : FVal → FVal → Bool
  | num a, num b => b < a
  | _, _ => false

/-- `np.isnan`. -/
def isNan : FVal → Bool
  | nan => true
  | num _ => false

end FVal

open FVal

/-- The seven severity labels returned by `classify_spei` / used as the keys
of the statistics dictionaries.  `extremeDry` = 极端干旱, `severeDry` = 严重干旱,
`moderateDry` = 中度干旱, `normal` = 正常, `moderateWet` = 中度湿润,
`severeWet` = 严重湿润, `extremeWet` = 极端湿润. -/
inductive Label : Type
  | extremeDry | severeDry | moderateDry | normal | moderateWet | severeWet | extremeWet
deriving DecidableEq, Repr

/-- The list `categories` of `app.py` (lines 220 and 362), in source order. -/
def categories : List Label :=
  [.extremeDry, .severeDry, .moderateDry, .normal, .moderateWet, .severeWet, .extremeWet]

/-- `classify_spei` (app.py lines 67–75).  Python's chained comparison
`a <= value < b` is `(a <= value) and (value < b)`; with a NaN input every
comparison is false and the function falls through to the final
`return '正常'`. -/
def classify_spei (value : FVal) : Label :=
  if flt value (num (-2)) then .extremeDry
  else if fle (num (-2)) value && flt value (num (-3/2)) then .severeDry
  else if fle (num (-3/2)) value && flt value (num (-1)) then .moderateDry
  else if fle (num (-1)) value && fle value (num 1) then .normal
  else if flt (num 1) value && fle value (num (3/2)) then .moderateWet
  else if flt (num (3/2)) value && fle value (num 2) then .severeWet
  else if flt (num 2) value then .extremeWet
  else .normal

/-- The per-category masks of app.py (lines 224–232, identical comparisons at
lines 365–371), as a predicate on the already-filtered (hence finite)
values. -/
def bucketMask (cat : Label) (v : ℚ) : Bool :=
  match cat with
  | .extremeDry => v < -2
  | .severeDry => -2 ≤ v && v < -3/2
  | .moderateDry => -3/2 ≤ v && v < -1
  | .normal => -1 ≤ v && v ≤ 1
  | .moderateWet => 1 < v && v ≤ 3/2
  | .severeWet => 3/2 < v && v ≤ 2
  | .extremeWet => 2 < v

/-- `np.radians`: degrees to radians. -/
noncomputable def radians (x : ℚ) : ℝ := x * Real.pi / 180

/-- `calculate_weighted_area` (app.py lines 44–65).  The local
`rad = np.radians(0.25)` of the source is never used: the per-pixel area is
the hardcoded `774.6 * np.cos(np.radians(lats))`, summed and divided by
10000 (万 km²).  The `valid_data` argument is accepted but never read. -/
noncomputable def calculate_weighted_area (valid_data : List ℚ) (lats : List ℚ) : ℝ :=
  ((lats.map fun lat => 774.6 * Real.cos (radians lat)).sum) / 10000

/-- Modelled from the spec (§4.3 AreaWeightedAggregator), for comparison with
`calculate_weighted_area`: area(lat) = (R·Δrad)²·cos(lat) with R = 6371 km
and Δrad = Δ in radians, summed over the cells and divided by 10000, with the
resolution Δ an explicit parameter. -/
noncomputable def spec_weighted_area (valid_data : List ℚ) (lats : List ℚ) (delta : ℚ) : ℝ :=
  ((lats.map fun lat => (6371 * radians delta) ^ 2 * Real.cos (radians lat)).sum) / 10000

/-- A raster cell: (value, latitude in degrees). -/
abbrev Cell : Type := FVal × ℚ

/-- The main-view validity mask (app.py lines 208–209):
`data_clean = np.where(data > -10, data, np.nan)` followed by
`valid_mask = ~np.isnan(data_clean)`. -/
def valid_mask (v : FVal) : Bool :=
  !(isNan (if fgt v (num (-10)) then v else FVal.nan))

/-- The sub-region validity mask (app.py line 351):
`(data_sub > -10) & (~np.isnan(data_sub))`. -/
def valid_mask_s (v : FVal) : Bool :=
  fgt v (num (-10)) && !(isNan v)

/-- The valid (value, latitude) pairs of a cell list: the cells surviving the
validity mask, with their (necessarily finite) values extracted — the arrays
`vals_s = data_sub[valid_mask_s]` and `lats_s = lat_grid_s[valid_mask_s]`. -/
def validPairs (cells : List Cell) : List (ℚ × ℚ) :=
  cells.filterMap fun c =>
    match c.1 with
    | FVal.num q => if valid_mask_s (num q) then some (q, c.2) else none
    | FVal.nan => none

/-- Python `round(x, 3)`: the nearest multiple of 1/1000.  (On a tie Lean's
`round` rounds up while Python rounds to even; no input considered in this
file is a tie.) -/
noncomputable def round3 (x : ℝ) : ℝ := (round (x * 1000) : ℤ) / 1000

/-- Weighted area of the sub-list of `pairs` whose value satisfies the mask
of `cat` — `calculate_weighted_area(vals[mask], lats[mask]) if np.any(mask)
else 0.0` (app.py lines 234–237 and 365–373). -/
noncomputable def bucket_area (pairs : List (ℚ × ℚ)) (cat : Label) : ℝ :=
  let sub := pairs.filter fun p => bucketMask cat p.1
  if sub.isEmpty then 0
  else calculate_weighted_area (sub.map Prod.fst) (sub.map Prod.snd)

/-- A region's area statistics: total weighted area and per-category weighted
areas (the `current_stats` dictionary). -/
structure Stats : Type where
  total : ℝ
  area : Label → ℝ

/-- `current_stats` of the main view (app.py lines 208–237): `none` models
the `if np.any(valid_mask):` guard leaving `current_stats` empty when no
cell is valid. -/
noncomputable def current_stats (cells : List Cell) : Option Stats :=
  let pairs := validPairs cells
  if pairs.isEmpty then none
  else some
    { total := calculate_weighted_area (pairs.map Prod.fst) (pairs.map Prod.snd)
      area := bucket_area pairs }

/-- One row of the per-child table: region name, total area and per-category
areas, all areas rounded to 3 decimals as in the source. -/
structure Row : Type where
  name : String
  total : ℝ
  area : Label → ℝ

/-- The `row_data` dictionary built for one child from its valid pairs
(app.py lines 360–374). -/
noncomputable def mkRowData (name : String) (pairs : List (ℚ × ℚ)) : Row :=
  { name := name
    total := round3 (calculate_weighted_area (pairs.map Prod.fst) (pairs.map Prod.snd))
    area := fun cat => round3 (bucket_area pairs cat) }

/-- `row_data` for one child's clipped cells: `none` models the
`if np.any(valid_mask_s):` guard appending no row when no cell is valid. -/
noncomputable def row_data (name : String) (cells : List Cell) : Option Row :=
  let pairs := validPairs cells
  if pairs.isEmpty then none
  else some (mkRowData name pairs)

/-- A child region as the rollup loop sees it.  The `clip` field models the
external `xds_raw.rio.clip([sub_geom], ...)` call: `none` is a raised
exception (malformed or non-intersecting geometry, caught by the loop's bare
`except: pass`), `some cells` the clipped grid. -/
structure Child : Type where
  name : String
  clip : Option (List Cell)

/-- The body of the per-child loop (app.py lines 337–378): a failing clip or
an empty valid set produces no row; otherwise the child's `row_data`. -/
noncomputable def processChild (c : Child) : Option Row :=
  match c.clip with
  | none => none
  | some cells => row_data c.name cells

/-- `sub_results` (app.py lines 330–378): one row per child that clips
successfully and has at least one valid cell, in input order. -/
noncomputable def sub_results (children : List Child) : List Row :=
  children.filterMap processChild

/-- The hazard total `干旱总面积` of a row (app.py line 388): the sum of the
three driest bucket areas. -/
noncomputable def hazard (r : Row) : ℝ :=
  r.area .extremeDry + r.area .severeDry + r.area .moderateDry

/-- The sort key relation of `df_sub.sort_values('干旱总面积', ascending=False)`:
`a` may precede `b` when its hazard total is at least `b`'s. -/
def hazardGE (a b : Row) : Prop := hazard b ≤ hazard a

noncomputable instance : DecidableRel hazardGE :=
  fun a b => inferInstanceAs (Decidable (hazard b ≤ hazard a))

instance : IsTotal Row hazardGE := ⟨fun a b => le_total (hazard b) (hazard a)⟩

instance : IsTrans Row hazardGE := ⟨fun _ _ _ h1 h2 => le_trans h2 h1⟩

/-- `df_sub` (app.py lines 385–389): the rows sorted descending by hazard
total (a stable sort: rows with equal hazard keep their input order; the
source specifies no tie-break). -/
noncomputable def df_sub (children : List Child) : List Row :=
  (sub_results children).insertionSort hazardGE

/-- `total_area_all` (app.py line 402): the report's top-line total, the sum
of the (rounded) total areas of the successful child rows. -/
noncomputable def total_area_all (children : List Child) : ℝ :=
  ((sub_results children).map Row.total).sum

/-- The valid pairs of the two-cell counterexample raster: values 0 (normal)
and 2.5 (extreme-wet), both at latitude 0. -/
def demoPairs : List (ℚ × ℚ) := [(0, 0), (5/2, 0)]

/-- The row the per-child code builds from `demoPairs`. -/
noncomputable def demoRow3 : Row := mkRowData "r" demoPairs

/-- The parent-panel statistics of the one-cell raster used as the C3
witness. -/
noncomputable def demoStats1 : Stats :=
  { total := calculate_weighted_area [0] [0]
    area := bucket_area [(0, 0)] }

/-- A child whose clipped raster is one valid normal cell (value 0) at
latitude 0, named `a`. -/
def childA : Child := ⟨"a", some [(num 0, 0)]⟩

/-- Same one-normal-cell raster, named `b`. -/
def childB : Child := ⟨"b", some [(num 0, 0)]⟩

/-- A child whose clipped raster is one valid extreme-dry cell (value −3)
at latitude 0, named `d`. -/
def childD : Child := ⟨"d", some [(num (-3), 0)]⟩

/-- A child whose clip raises, named `f`. -/
def childF : Child := ⟨"f", none⟩

/-- On finite values the masks agree with `classify_spei`. -/
lemma bucketMask_eq_classify (cat : Label) (v : ℚ) :
    bucketMask cat v = true ↔ classify_spei (num v) = cat := by
  cases cat <;>
    simp only [bucketMask, classify_spei, flt, fle, Bool.and_eq_true, decide_eq_true_eq] <;>
    split_ifs <;>
    simp_all <;>
    (intros ; (try casesm* _ ∧ _)) <;>
    (try constructor) <;>
    intros <;>
    linarith

/-- Each finite value satisfies the mask of exactly one category. -/
lemma bucketMask_partition (v : ℚ) :
    ∃! cat, cat ∈ categories ∧ bucketMask cat v = true := by
  refine ⟨classify_spei (num v), ⟨?_, (bucketMask_eq_classify _ v).2 rfl⟩, ?_⟩
  · cases h : classify_spei (num v) <;> simp [categories]
  · rintro cat ⟨-, hm⟩
    exact ((bucketMask_eq_classify cat v).1 hm).symm

/-- C1 counterexample: on the input −0.5 the classifier returns `normal`
(−0.5 lies in the normal interval [−1, 1]), not `moderateDry`, so the
claimed output list on [−3, −1.8, −0.5, 0, 1.2, 1.8, 2.5] — the seven labels
in severity order — is not what `classify_spei` produces. -/
theorem classify_spei_counterexample :
    classify_spei (num (-1/2)) = Label.normal ∧
    [(-3 : ℚ), -9/5, -1/2, 0, 6/5, 9/5, 5/2].map (fun q => classify_spei (num q)) ≠
      [.extremeDry, .severeDry, .moderateDry, .normal, .moderateWet, .severeWet, .extremeWet] := by
  norm_num [classify_spei, flt, fle]
  decide

/-- C1 (amended): `classify_spei` realises the canonical seven-bucket
partition of the real line (extreme-dry for v < −2, severe-dry for
−2 ≤ v < −1.5, moderate-dry for −1.5 ≤ v < −1, normal for −1 ≤ v ≤ 1,
moderate-wet for 1 < v ≤ 1.5, severe-wet for 1.5 < v ≤ 2, extreme-wet for
v > 2); a pointwise input that does return the seven labels in order is
[−3, −1.8, −1.2, 0, 1.2, 1.8, 2.5], whereas −0.5 falls in the normal
bucket. -/
theorem classify_spei_partition (v : ℚ) :
    (classify_spei (num v) = .extremeDry ↔ v < -2) ∧
    (classify_spei (num v) = .severeDry ↔ -2 ≤ v ∧ v < -3/2) ∧
    (classify_spei (num v) = .moderateDry ↔ -3/2 ≤ v ∧ v < -1) ∧
    (classify_spei (num v) = .normal ↔ -1 ≤ v ∧ v ≤ 1) ∧
    (classify_spei (num v) = .moderateWet ↔ 1 < v ∧ v ≤ 3/2) ∧
    (classify_spei (num v) = .severeWet ↔ 3/2 < v ∧ v ≤ 2) ∧
    (classify_spei (num v) = .extremeWet ↔ 2 < v) ∧
    [(-3 : ℚ), -9/5, -6/5, 0, 6/5, 9/5, 5/2].map (fun q => classify_spei (num q)) =
      [.extremeDry, .severeDry, .moderateDry, .normal, .moderateWet, .severeWet, .extremeWet] := by
  have hmap : [(-3 : ℚ), -9/5, -6/5, 0, 6/5, 9/5, 5/2].map (fun q => classify_spei (num q)) =
      [.extremeDry, .severeDry, .moderateDry, .normal, .moderateWet, .severeWet, .extremeWet] := by
    norm_num [classify_spei, flt, fle]
  refine ⟨?_, ?_, ?_, ?_, ?_, ?_, ?_, hmap⟩ <;>
    · rw [← bucketMask_eq_classify]
      simp [bucketMask]

/-- C10: `classify_spei` is total on NaN: every comparison in the chain is
false, so it falls through to the final `return '正常'` (normal). -/
theorem classify_spei_nan : classify_spei FVal.nan = Label.normal := by
  decide

lemma spec_const_sq : (6371 * radians (1/4)) ^ 2 = 40589641 / 518400 * Real.pi ^ 2 := by
  simp only [radians]
  push_cast
  ring

lemma spec_const_lt : (6371 * radians (1/4)) ^ 2 < 774.6 := by
  have hπ : Real.pi < 3.141593 := Real.pi_lt_d6
  have hπ0 : 0 < Real.pi := Real.pi_pos
  rw [spec_const_sq]
  nlinarith

lemma lt_spec_const_add_two : (774.6 : ℝ) < (6371 * radians (1/4)) ^ 2 + 2 := by
  have hπ : 3.141592 < Real.pi := Real.pi_gt_d6
  have hπ0 : 0 < Real.pi := Real.pi_pos
  rw [spec_const_sq]
  nlinarith

/-- C2 counterexample: on the single-cell input with latitude 0 the code
returns 774.6/10000, while the spec formula with R = 6371, Δ = 0.25° gives
(6371·Δrad)²/10000 ≈ 772.77/10000; the two differ. -/
theorem calculate_weighted_area_counterexample :
    calculate_weighted_area [0] [0] ≠ spec_weighted_area [0] [0] (1/4) := by
  have hlt : (6371 * radians (1/4)) ^ 2 < 774.6 := spec_const_lt
  simp only [calculate_weighted_area, spec_weighted_area, List.map_cons, List.map_nil,
    List.sum_cons, List.sum_nil]
  have h0 : radians 0 = 0 := by simp [radians]
  rw [h0, Real.cos_zero]
  intro h
  have : (774.6 : ℝ) = (6371 * radians (1/4)) ^ 2 := by
    field_simp at h
    linarith
  linarith

/-- C2 (amended): `calculate_weighted_area` computes
Σᵢ 774.6 · cos(latᵢ in radians) / 10000, where 774.6 is a constant hardcoded
into the function: it equals the spec formula at the fixed resolution
Δ = 0.25° scaled by 774.6/(6371·Δrad)², and 774.6 approximates the spec
constant (6371·Δrad)² ≈ 772.77 from above to within 2 km² without being equal
to it; the resolution is not a parameter of the function. -/
theorem calculate_weighted_area_amended :
    (∀ valid_data lats, calculate_weighted_area valid_data lats =
      774.6 / (6371 * radians (1/4)) ^ 2 * spec_weighted_area valid_data lats (1/4)) ∧
    (6371 * radians (1/4)) ^ 2 < 774.6 ∧ (774.6 : ℝ) < (6371 * radians (1/4)) ^ 2 + 2 := by
  have hc : (0 : ℝ) < (6371 * radians (1/4)) ^ 2 := by
    have hπ0 : 0 < Real.pi := Real.pi_pos
    have : (0 : ℝ) < radians (1/4) := by
      simp only [radians]
      positivity
    positivity
  refine ⟨?_, spec_const_lt, lt_spec_const_add_two⟩
  intro valid_data lats
  rw [div_mul_eq_mul_div, eq_div_iff (ne_of_gt hc)]
  simp only [calculate_weighted_area, spec_weighted_area, List.sum_map_mul_left]
  ring

/-- C9: the result of `calculate_weighted_area` depends only on the
latitudes: the `valid_data` parameter is never read, and the empty cell set
yields area 0. -/
theorem calculate_weighted_area_ignores_values :
    (∀ v1 v2 lats, calculate_weighted_area v1 lats = calculate_weighted_area v2 lats) ∧
    (∀ v, calculate_weighted_area v [] = 0) := by
  refine ⟨fun v1 v2 lats => rfl, fun v => ?_⟩
  simp [calculate_weighted_area]

lemma valid_mask_eq_s (v : FVal) : valid_mask v = valid_mask_s v := by
  cases v with
  | nan => rfl
  | num q =>
    simp only [valid_mask, valid_mask_s, fgt, isNan]
    by_cases h : (-10 : ℚ) < q <;> simp [h, isNan]

lemma mem_validPairs (cells : List Cell) (q lat : ℚ) :
    (q, lat) ∈ validPairs cells ↔ (num q, lat) ∈ cells ∧ -10 < q := by
  simp only [validPairs, List.mem_filterMap]
  constructor
  · rintro ⟨⟨v, lat'⟩, hmem, hf⟩
    cases v with
    | nan => simp at hf
    | num q' =>
      simp only [valid_mask_s, fgt, isNan, Bool.not_false, Bool.and_true] at hf
      split_ifs at hf with h
      simp only [Option.some.injEq, Prod.mk.injEq] at hf
      obtain ⟨hq, hl⟩ := hf
      subst hq
      subst hl
      exact ⟨hmem, by simpa using h⟩
  · rintro ⟨hmem, hq⟩
    exact ⟨(num q, lat), hmem, by simp [valid_mask_s, fgt, isNan, hq]⟩

/-- C6: a cell is valid iff its value is finite (not NaN) and strictly
greater than −10; the main-view mask and the sub-region mask agree; cells
with value ≤ −10 (or NaN) never enter the valid pair list feeding all
downstream sums and classification; and an input with no valid cell yields
the explicit empty outcome `none` rather than a failure. -/
theorem validity_filter :
    (∀ v, valid_mask v = valid_mask_s v) ∧
    (∀ q : ℚ, valid_mask_s (num q) = true ↔ -10 < q) ∧
    valid_mask_s FVal.nan = false ∧
    (∀ (cells : List Cell) (q lat : ℚ),
      (q, lat) ∈ validPairs cells ↔ (num q, lat) ∈ cells ∧ -10 < q) ∧
    (∀ cells : List Cell, current_stats cells = none ↔ validPairs cells = []) := by
  refine ⟨valid_mask_eq_s, ?_, rfl, mem_validPairs, ?_⟩
  · intro q
    simp [valid_mask_s, fgt, isNan]
  · intro cells
    simp only [current_stats]
    split_ifs with h <;> simp_all [List.isEmpty_iff]

lemma sub_results_length_add (children : List Child) :
    (sub_results children).length +
      (children.filter fun c => (processChild c).isNone).length = children.length := by
  induction children with
  | nil => rfl
  | cons c rest ih =>
    simp only [sub_results, List.filterMap_cons, List.filter_cons] at *
    cases h : processChild c <;> simp [h] <;> omega

/-- C7: a child whose clip fails or that has zero valid cells is silently
omitted while every other child is processed unchanged — removing the failing
child from the input leaves the output rows identical — a successful child's
row always appears at its place, and a rollup over N children with k
failures returns N − k rows. -/
theorem rollup_isolates_failures :
    (∀ children : List Child,
      (sub_results children).length =
        children.length - (children.filter fun c => (processChild c).isNone).length) ∧
    (∀ (pre post : List Child) (c : Child), processChild c = none →
      sub_results (pre ++ c :: post) = sub_results (pre ++ post)) ∧
    (∀ c : Child, processChild c = none ↔
      c.clip = none ∨ ∃ cells, c.clip = some cells ∧ validPairs cells = []) ∧
    (∀ (pre post : List Child) (c : Child) (r : Row), processChild c = some r →
      sub_results (pre ++ c :: post) = sub_results pre ++ r :: sub_results post) := by
  refine ⟨?_, ?_, ?_, ?_⟩
  · intro children
    have h := sub_results_length_add children
    omega
  · intro pre post c hc
    simp [sub_results, List.filterMap_append, List.filterMap_cons, hc]
  · intro c
    cases hclip : c.clip with
    | none => simp [processChild, hclip]
    | some cells =>
      simp only [processChild, hclip, row_data]
      split_ifs with h <;> simp_all [List.isEmpty_iff]
  · intro pre post c r hc
    simp [sub_results, List.filterMap_append, List.filterMap_cons, hc]

/-- Witness for C7 at a concrete input: a rollup over a failing child
(`clip = none`) and a healthy child drops only the failing one. -/
theorem rollup_isolates_failures_witness :
    processChild ⟨"f", none⟩ = none ∧
    sub_results ([] ++ ⟨"f", none⟩ :: [⟨"a", some [(num 0, 0)]⟩]) =
      sub_results ([] ++ [⟨"a", some [(num 0, 0)]⟩]) :=
  ⟨rfl, rollup_isolates_failures.2.1 [] [⟨"a", some [(num 0, 0)]⟩] ⟨"f", none⟩ rfl⟩

lemma cwa_pairs (sub : List (ℚ × ℚ)) :
    calculate_weighted_area (sub.map Prod.fst) (sub.map Prod.snd)
      = (sub.map fun p => 774.6 * Real.cos (radians p.2)).sum / 10000 := by
  simp only [calculate_weighted_area, List.map_map]
  rfl

lemma sum_bucket_weights (f : ℚ × ℚ → ℝ) (pairs : List (ℚ × ℚ)) :
    (categories.map fun cat =>
      ((pairs.filter fun p => bucketMask cat p.1).map f).sum).sum
      = (pairs.map f).sum := by
  induction pairs with
  | nil => simp
  | cons p rest ih =>
    have hterm : ∀ cat : Label,
        (((p :: rest).filter fun p' => bucketMask cat p'.1).map f).sum
          = (if bucketMask cat p.1 then f p else 0)
            + ((rest.filter fun p' => bucketMask cat p'.1).map f).sum := by
      intro cat
      rw [List.filter_cons]
      split_ifs <;> simp
    simp only [categories, List.map_cons, List.map_nil, List.sum_cons, List.sum_nil,
      hterm] at ih ⊢
    cases hcl : classify_spei (num p.1) <;>
      · simp only [bucketMask_eq_classify, hcl] at *
        simp at *
        linarith

/-- The seven bucket areas of a pair list sum exactly (in real arithmetic)
to its total weighted area, because the seven masks partition the valid
values. -/
lemma sum_bucket_area (pairs : List (ℚ × ℚ)) :
    (categories.map (bucket_area pairs)).sum
      = calculate_weighted_area (pairs.map Prod.fst) (pairs.map Prod.snd) := by
  have hba : ∀ cat : Label, bucket_area pairs cat
      = ((pairs.filter fun p => bucketMask cat p.1).map
          fun p => 774.6 * Real.cos (radians p.2)).sum / 10000 := by
    intro cat
    simp only [bucket_area]
    split_ifs with hemp
    · rw [List.isEmpty_iff] at hemp
      simp [hemp]
    · exact cwa_pairs _
  have hsum := sum_bucket_weights (fun p => 774.6 * Real.cos (radians p.2)) pairs
  rw [cwa_pairs]
  simp only [categories, List.map_cons, List.map_nil, List.sum_cons, List.sum_nil,
    hba] at hsum ⊢
  linarith

lemma abs_round3_sub (x : ℝ) : |round3 x - x| ≤ 1/2000 := by
  have h := abs_sub_round (x * 1000)
  rw [abs_sub_comm] at h
  have heq : round3 x - x = ((round (x * 1000) : ℤ) - x * 1000) / 1000 := by
    rw [round3]
    ring
  rw [heq, abs_div, abs_of_pos (by norm_num : (0:ℝ) < 1000)]
  linarith

lemma round3_eq (x : ℝ) (n : ℤ) (h1 : (n : ℝ) ≤ x * 1000 + 1/2)
    (h2 : x * 1000 + 1/2 < n + 1) : round3 x = n / 1000 := by
  have hf : ⌊x * 1000 + 1/2⌋ = n := Int.floor_eq_iff.mpr ⟨h1, by push_cast; linarith⟩
  rw [round3, round_eq, hf]

/-- C3 (amended): for the parent panel's `current_stats` (unrounded areas)
the seven bucket areas sum to the total area exactly, in real arithmetic;
for a per-child row, whose eight figures are each rounded to 3 decimals, the
sum of the bucket areas agrees with the total only up to the accumulated
rounding error, bounded by 8 × 1/2000 = 1/250 in absolute value — not within
1e-6 relative tolerance. -/
theorem area_stat_sum :
    (∀ (cells : List Cell) (s : Stats), current_stats cells = some s →
      (categories.map s.area).sum = s.total) ∧
    (∀ (name : String) (cells : List Cell) (r : Row), row_data name cells = some r →
      |(categories.map r.area).sum - r.total| ≤ 1/250) := by
  constructor
  · intro cells s hs
    simp only [current_stats] at hs
    split_ifs at hs with h
    simp only [Option.some.injEq] at hs
    subst hs
    exact sum_bucket_area _
  · intro name cells r hr
    simp only [row_data] at hr
    split_ifs at hr with h
    simp only [Option.some.injEq] at hr
    subst hr
    simp only [mkRowData]
    set pairs := validPairs cells
    have hkey := sum_bucket_area pairs
    have htot := abs_le.mp (abs_round3_sub
      (calculate_weighted_area (pairs.map Prod.fst) (pairs.map Prod.snd)))
    have hcat : ∀ cat : Label,
        -(1/2000 : ℝ) ≤ round3 (bucket_area pairs cat) - bucket_area pairs cat ∧
          round3 (bucket_area pairs cat) - bucket_area pairs cat ≤ 1/2000 :=
      fun cat => abs_le.mp (abs_round3_sub (bucket_area pairs cat))
    obtain ⟨h1a, h1b⟩ := hcat .extremeDry
    obtain ⟨h2a, h2b⟩ := hcat .severeDry
    obtain ⟨h3a, h3b⟩ := hcat .moderateDry
    obtain ⟨h4a, h4b⟩ := hcat .normal
    obtain ⟨h5a, h5b⟩ := hcat .moderateWet
    obtain ⟨h6a, h6b⟩ := hcat .severeWet
    obtain ⟨h7a, h7b⟩ := hcat .extremeWet
    simp only [categories, List.map_cons, List.map_nil, List.sum_cons, List.sum_nil] at hkey ⊢
    rw [abs_le]
    constructor <;> linarith

lemma validPairs_cons_num (q lat : ℚ) (cells : List Cell) (h : -10 < q) :
    validPairs ((num q, lat) :: cells) = (q, lat) :: validPairs cells := by
  simp [validPairs, List.filterMap_cons, valid_mask_s, fgt, isNan, h]

lemma round3_zero : round3 0 = 0 := by
  simp [round3]

lemma cwa_zero1 (v : List ℚ) : calculate_weighted_area v [0] = 774.6 / 10000 := by
  norm_num [calculate_weighted_area, radians, Real.cos_zero]

lemma cwa_zero2 (v : List ℚ) : calculate_weighted_area v [0, 0] = 1549.2 / 10000 := by
  norm_num [calculate_weighted_area, radians, Real.cos_zero]

lemma demoRow3_total : demoRow3.total = 155 / 1000 := by
  have hmap : (demoPairs.map Prod.snd) = [0, 0] := rfl
  simp only [demoRow3, mkRowData, hmap, cwa_zero2]
  rw [round3_eq _ 155 (by norm_num) (by norm_num)]
  norm_num

lemma demoPairs_filter_normal :
    (demoPairs.filter fun p => bucketMask .normal p.1) = [((0:ℚ), (0:ℚ))] := by
  norm_num [demoPairs, bucketMask, List.filter_cons, List.filter_nil]

lemma demoPairs_filter_extremeWet :
    (demoPairs.filter fun p => bucketMask .extremeWet p.1) = [((5/2 : ℚ), (0:ℚ))] := by
  norm_num [demoPairs, bucketMask, List.filter_cons, List.filter_nil]

lemma demoRow3_area_normal : demoRow3.area .normal = 77 / 1000 := by
  simp only [demoRow3, mkRowData, bucket_area, demoPairs_filter_normal]
  norm_num [cwa_zero1]
  rw [round3_eq _ 77 (by norm_num) (by norm_num)]
  norm_num

lemma demoRow3_area_extremeWet : demoRow3.area .extremeWet = 77 / 1000 := by
  simp only [demoRow3, mkRowData, bucket_area, demoPairs_filter_extremeWet]
  norm_num [cwa_zero1]
  rw [round3_eq _ 77 (by norm_num) (by norm_num)]
  norm_num

lemma demoRow3_area_empty (cat : Label)
    (hf : (demoPairs.filter fun p => bucketMask cat p.1) = []) :
    demoRow3.area cat = 0 := by
  simp only [demoRow3, mkRowData, bucket_area, hf]
  simp [round3_zero]

/-- C3 counterexample: on a raster of two valid cells at latitude 0 with
values 0 and 2.5, the per-child row has bucket areas 0.077 + 0.077 = 0.154
after 3-decimal rounding, but total 0.155; the sum differs from the total,
and by far more than 1e-6 relative tolerance. -/
theorem area_stat_sum_counterexample :
    row_data "r" [(num 0, 0), (num (5/2), 0)] = some demoRow3 ∧
    (categories.map demoRow3.area).sum ≠ demoRow3.total ∧
    1/1000000 * |demoRow3.total| < |(categories.map demoRow3.area).sum - demoRow3.total| := by
  have hvp : validPairs [(num 0, 0), (num (5/2), 0)] = demoPairs := by
    rw [show ((num 0, (0:ℚ)) :: [(num (5/2), (0:ℚ))]) = [(num 0, 0), (num (5/2), 0)] from rfl] at *
    rw [validPairs_cons_num _ _ _ (by norm_num), validPairs_cons_num _ _ _ (by norm_num)]
    rfl
  have hrd : row_data "r" [(num 0, 0), (num (5/2), 0)] = some demoRow3 := by
    simp only [row_data, hvp]
    rfl
  have h1 : demoRow3.area .extremeDry = 0 :=
    demoRow3_area_empty _ (by norm_num [demoPairs, bucketMask, List.filter_cons, List.filter_nil])
  have h2 : demoRow3.area .severeDry = 0 :=
    demoRow3_area_empty _ (by norm_num [demoPairs, bucketMask, List.filter_cons, List.filter_nil])
  have h3 : demoRow3.area .moderateDry = 0 :=
    demoRow3_area_empty _ (by norm_num [demoPairs, bucketMask, List.filter_cons, List.filter_nil])
  have h5 : demoRow3.area .moderateWet = 0 :=
    demoRow3_area_empty _ (by norm_num [demoPairs, bucketMask, List.filter_cons, List.filter_nil])
  have h6 : demoRow3.area .severeWet = 0 :=
    demoRow3_area_empty _ (by norm_num [demoPairs, bucketMask, List.filter_cons, List.filter_nil])
  refine ⟨hrd, ?_, ?_⟩ <;>
    simp only [categories, List.map_cons, List.map_nil, List.sum_cons, List.sum_nil,
      h1, h2, h3, h5, h6, demoRow3_area_normal, demoRow3_area_extremeWet, demoRow3_total] <;>
    norm_num [abs_of_nonneg, abs_of_nonpos]

/-- Witness for C3 at a concrete input: a one-cell raster produces stats,
and the theorem's two bounds apply to them. -/
theorem area_stat_sum_witness :
    current_stats [(num 0, 0)] = some demoStats1 ∧
    (categories.map demoStats1.area).sum = demoStats1.total ∧
    row_data "w" [(num 0, 0)] = some (mkRowData "w" [(0, 0)]) ∧
    |(categories.map (mkRowData "w" [(0, 0)]).area).sum - (mkRowData "w" [(0, 0)]).total| ≤ 1/250 := by
  have hvp : validPairs [(num 0, 0)] = [(0, 0)] := by
    rw [validPairs_cons_num _ _ _ (by norm_num)]
    rfl
  have hcs : current_stats [(num 0, 0)] = some demoStats1 := by
    simp only [current_stats, hvp]
    rfl
  have hrd : row_data "w" [(num 0, 0)] = some (mkRowData "w" [(0, 0)]) := by
    simp only [row_data, hvp]
    rfl
  exact ⟨hcs, area_stat_sum.1 _ _ hcs, hrd, area_stat_sum.2 _ _ _ hrd⟩

lemma validPairs_one : validPairs [(num 0, 0)] = [(0, 0)] := by
  rw [validPairs_cons_num _ _ _ (by norm_num)]
  rfl

lemma validPairs_dry : validPairs [(num (-3), 0)] = [(-3, 0)] := by
  rw [validPairs_cons_num _ _ _ (by norm_num)]
  rfl

lemma processChild_zero (name : String) :
    processChild ⟨name, some [(num 0, 0)]⟩ = some (mkRowData name [(0, 0)]) := by
  simp only [processChild, row_data, validPairs_one]
  rfl

lemma processChild_dry (name : String) :
    processChild ⟨name, some [(num (-3), 0)]⟩ = some (mkRowData name [(-3, 0)]) := by
  simp only [processChild, row_data, validPairs_dry]
  rfl

lemma mkRow_area_empty (name : String) (pairs : List (ℚ × ℚ)) (cat : Label)
    (hf : (pairs.filter fun p => bucketMask cat p.1) = []) :
    (mkRowData name pairs).area cat = 0 := by
  simp only [mkRowData, bucket_area, hf]
  simp [round3_zero]

lemma hazard_rowZero (name : String) : hazard (mkRowData name [(0, 0)]) = 0 := by
  rw [hazard,
    mkRow_area_empty _ _ _ (by norm_num [bucketMask, List.filter_cons, List.filter_nil]),
    mkRow_area_empty _ _ _ (by norm_num [bucketMask, List.filter_cons, List.filter_nil]),
    mkRow_area_empty _ _ _ (by norm_num [bucketMask, List.filter_cons, List.filter_nil])]
  ring

lemma hazard_rowDry (name : String) : hazard (mkRowData name [(-3, 0)]) = 77 / 1000 := by
  have hED : (mkRowData name [((-3 : ℚ), (0 : ℚ))]).area .extremeDry = 77 / 1000 := by
    have hf : (([((-3 : ℚ), (0 : ℚ))]).filter fun p => bucketMask .extremeDry p.1)
        = [((-3 : ℚ), (0 : ℚ))] := by
      norm_num [bucketMask, List.filter_cons, List.filter_nil]
    simp only [mkRowData, bucket_area, hf]
    norm_num [cwa_zero1]
    rw [round3_eq _ 77 (by norm_num) (by norm_num)]
    norm_num
  rw [hazard, hED,
    mkRow_area_empty _ _ _ (by norm_num [bucketMask, List.filter_cons, List.filter_nil]),
    mkRow_area_empty _ _ _ (by norm_num [bucketMask, List.filter_cons, List.filter_nil])]
  ring

lemma rowZero_total (name : String) : (mkRowData name [(0, 0)]).total = 77 / 1000 := by
  simp only [mkRowData]
  rw [show (([((0:ℚ), (0:ℚ))]).map Prod.snd) = [0] from rfl, cwa_zero1,
    round3_eq _ 77 (by norm_num) (by norm_num)]
  norm_num

lemma df_sub_zero_pair (n1 n2 : String) :
    df_sub [⟨n1, some [(num 0, 0)]⟩, ⟨n2, some [(num 0, 0)]⟩]
      = [mkRowData n1 [(0, 0)], mkRowData n2 [(0, 0)]] := by
  have hsub : sub_results [⟨n1, some [(num 0, 0)]⟩, ⟨n2, some [(num 0, 0)]⟩]
      = [mkRowData n1 [(0, 0)], mkRowData n2 [(0, 0)]] := by
    simp [sub_results, List.filterMap_cons, processChild_zero]
  have hge : hazardGE (mkRowData n1 [(0, 0)]) (mkRowData n2 [(0, 0)]) := by
    rw [hazardGE, hazard_rowZero, hazard_rowZero]
  rw [df_sub, hsub]
  calc List.insertionSort hazardGE [mkRowData n1 [(0, 0)], mkRowData n2 [(0, 0)]]
      = List.orderedInsert hazardGE (mkRowData n1 [(0, 0)]) [mkRowData n2 [(0, 0)]] := by
        simp [List.insertionSort, List.orderedInsert]
    _ = [mkRowData n1 [(0, 0)], mkRowData n2 [(0, 0)]] :=
        List.orderedInsert_of_le _ _ hge

/-- C4 counterexample: two sibling children with equal hazard totals, input
order `b` then `a`: the sorted table keeps them in input order `[b, a]`,
not region-name-ascending order `[a, b]` — the code applies no name
tie-break. -/
theorem df_sub_tiebreak_counterexample :
    hazard (mkRowData "b" [(0, 0)]) = hazard (mkRowData "a" [(0, 0)]) ∧
    (df_sub [⟨"b", some [(num 0, 0)]⟩, ⟨"a", some [(num 0, 0)]⟩]).map Row.name
      = ["b", "a"] ∧
    (["b", "a"] : List String) ≠ ["a", "b"] := by
  refine ⟨by rw [hazard_rowZero, hazard_rowZero], ?_, by decide⟩
  rw [df_sub_zero_pair]
  rfl

/-- C4 (amended): the rollup sorts the child rows descending by hazard
total; the sort is a permutation of the computed rows and rows with equal
hazard totals keep a deterministic order — their input order — but no
region-name tie-break is applied. -/
theorem df_sub_sorted_desc (children : List Child) :
    (df_sub children).Sorted hazardGE ∧ (df_sub children).Perm (sub_results children) :=
  ⟨List.sorted_insertionSort hazardGE _, List.perm_insertionSort hazardGE _⟩

lemma eq_of_perm_of_sorted_hazard :
    ∀ {l₁ l₂ : List Row}, l₁.Perm l₂ → l₁.Sorted hazardGE → l₂.Sorted hazardGE →
      l₁.Pairwise (fun a b => hazard a ≠ hazard b) → l₁ = l₂ := by
  intro l₁
  induction l₁ with
  | nil =>
    intro l₂ hp _ _ _
    exact hp.nil_eq
  | cons a t₁ ih =>
    intro l₂ hp hs₁ hs₂ hpw
    cases l₂ with
    | nil =>
      have := hp.length_eq
      simp at this
    | cons b t₂ =>
      by_cases hab : a = b
      · subst hab
        rw [ih hp.cons_inv hs₁.of_cons hs₂.of_cons hpw.of_cons]
      · exfalso
        have ha2 : a ∈ t₂ := by
          have ha : a ∈ b :: t₂ := hp.mem_iff.mp (List.mem_cons_self a t₁)
          rcases List.mem_cons.mp ha with h | h
          · exact absurd h hab
          · exact h
        have hb1 : b ∈ t₁ := by
          have hb : b ∈ a :: t₁ := hp.symm.mem_iff.mp (List.mem_cons_self b t₂)
          rcases List.mem_cons.mp hb with h | h
          · exact absurd h.symm hab
          · exact h
        have h₁ : hazard b ≤ hazard a := List.rel_of_sorted_cons hs₁ b hb1
        have h₂ : hazard a ≤ hazard b := List.rel_of_sorted_cons hs₂ a ha2
        have hne : hazard a ≠ hazard b := (List.pairwise_cons.mp hpw).1 b hb1
        exact hne (le_antisymm h₂ h₁)

/-- C8 counterexample: permuting two equal-hazard children reorders the
ranked table — the output is not invariant under permutation of the child
list. -/
theorem rollup_perm_counterexample :
    df_sub [⟨"b", some [(num 0, 0)]⟩, ⟨"a", some [(num 0, 0)]⟩]
      ≠ df_sub [⟨"a", some [(num 0, 0)]⟩, ⟨"b", some [(num 0, 0)]⟩] := by
  rw [df_sub_zero_pair, df_sub_zero_pair]
  intro h
  have hn := congrArg (List.map Row.name) h
  simp only [List.map_cons, List.map_nil, mkRowData] at hn
  exact absurd hn (by decide)

/-- C8 (amended): permuting the child list permutes the ranked rows (the
same rows appear), and whenever the successful rows' hazard totals are
pairwise distinct the ranked table is identical; only the relative order of
equal-hazard rows can change. -/
theorem rollup_perm_invariance (ch1 ch2 : List Child) (hperm : ch1.Perm ch2) :
    (df_sub ch1).Perm (df_sub ch2) ∧
    ((sub_results ch1).Pairwise (fun a b => hazard a ≠ hazard b) →
      df_sub ch1 = df_sub ch2) := by
  have hrows : (sub_results ch1).Perm (sub_results ch2) := hperm.filterMap processChild
  have hp1 : (df_sub ch1).Perm (sub_results ch1) := List.perm_insertionSort hazardGE _
  have hp2 : (df_sub ch2).Perm (sub_results ch2) := List.perm_insertionSort hazardGE _
  have hdf : (df_sub ch1).Perm (df_sub ch2) := hp1.trans (hrows.trans hp2.symm)
  refine ⟨hdf, fun hdist => ?_⟩
  have hdist1 : (df_sub ch1).Pairwise (fun a b => hazard a ≠ hazard b) :=
    (hp1.pairwise_iff fun hxy he => hxy he.symm).mpr hdist
  exact eq_of_perm_of_sorted_hazard hdf (List.sorted_insertionSort hazardGE _)
    (List.sorted_insertionSort hazardGE _) hdist1

/-- Witness for C8 at a concrete input: two children with distinct hazard
totals (0 and 0.077), swapped, give the identical ranked table. -/
theorem rollup_perm_invariance_witness :
    (([childA, childD] : List Child).Perm [childD, childA]) ∧
    (sub_results [childA, childD]).Pairwise (fun a b => hazard a ≠ hazard b) ∧
    df_sub [childA, childD] = df_sub [childD, childA] := by
  have hperm : ([childA, childD] : List Child).Perm [childD, childA] :=
    List.Perm.swap childD childA []
  have hsub : sub_results [childA, childD] = [mkRowData "a" [(0, 0)], mkRowData "d" [(-3, 0)]] := by
    simp [sub_results, List.filterMap_cons, childA, childD, processChild_zero, processChild_dry]
  have hdist : (sub_results [childA, childD]).Pairwise (fun a b => hazard a ≠ hazard b) := by
    rw [hsub]
    refine List.pairwise_cons.mpr ⟨?_, by simp⟩
    intro r hr
    rw [List.mem_singleton] at hr
    subst hr
    rw [hazard_rowZero, hazard_rowDry]
    norm_num
  exact ⟨hperm, hdist, (rollup_perm_invariance _ _ hperm).2 hdist⟩

/-- C5 counterexample: the report's top-line figure `total_area_all` changes
when a child is added: with one one-cell child it is 0.077, after adding a
second child it is 0.154 — it is the sum over the child rows, not a
children-independent parent figure. -/
theorem total_area_all_counterexample :
    total_area_all [childA, childB] ≠ total_area_all [childA] := by
  have hsA : sub_results [childA] = [mkRowData "a" [(0, 0)]] := by
    simp [sub_results, List.filterMap_cons, childA, processChild_zero]
  have hsAB : sub_results [childA, childB]
      = [mkRowData "a" [(0, 0)], mkRowData "b" [(0, 0)]] := by
    simp [sub_results, List.filterMap_cons, childA, childB, processChild_zero]
  have h1 : total_area_all [childA] = 77 / 1000 := by
    rw [total_area_all, hsA]
    simp only [List.map_cons, List.map_nil, List.sum_cons, List.sum_nil, add_zero]
    exact rowZero_total "a"
  have h2 : total_area_all [childA, childB] = 77 / 1000 + 77 / 1000 := by
    rw [total_area_all, hsAB]
    simp only [List.map_cons, List.map_nil, List.sum_cons, List.sum_nil, add_zero]
    rw [rowZero_total, rowZero_total]
  rw [h1, h2]
  norm_num

/-- C5 (amended): the report's top-line total is the sum of the successful
child rows' (rounded) total areas: a child whose processing fails contributes
nothing, and every successful child shifts the top-line by its row total —
so the figure depends on the child list.  (The children-independent
parent-polygon figure is `current_stats`' total, shown in the side panel,
not this one.) -/
theorem total_area_all_children_sum :
    (∀ (children : List Child) (c : Child), processChild c = none →
      total_area_all (children ++ [c]) = total_area_all children) ∧
    (∀ (children : List Child) (c : Child) (r : Row), processChild c = some r →
      total_area_all (children ++ [c]) = total_area_all children + r.total) := by
  constructor
  · intro children c hc
    simp [total_area_all, sub_results, List.filterMap_append, List.filterMap_cons, hc]
  · intro children c r hc
    simp [total_area_all, sub_results, List.filterMap_append, List.filterMap_cons, hc]

/-- Witness for C5 at concrete inputs: a failing child leaves the top-line
unchanged; a successful child adds its row total. -/
theorem total_area_all_children_sum_witness :
    processChild childF = none ∧
    total_area_all ([childA] ++ [childF]) = total_area_all [childA] ∧
    processChild childA = some (mkRowData "a" [(0, 0)]) ∧
    total_area_all ([] ++ [childA]) = total_area_all [] + (mkRowData "a" [(0, 0)]).total := by
  have hA : processChild childA = some (mkRowData "a" [(0, 0)]) := processChild_zero "a"
  exact ⟨rfl, total_area_all_children_sum.1 [childA] childF rfl,
    hA, total_area_all_children_sum.2 [] childA _ hA⟩
